import Mathlib

/-!
Verification of the Falcon 9 second-stage debris-capture mission controller:
a shallow embedding of the `falcon9_debris_capture` package (`ai_brain.py`,
`subsystems/power_system.py`, `subsystems/propulsion.py`,
`subsystems/grabbing_system.py`, `config.py`) over the real numbers, together
with theorems about the orchestrator, power, propulsion and grabbing
subsystems.
-/

namespace Falcon9

noncomputable section

/-- A 3-component real vector, modelling a numpy length-3 float array. -/
structure Vec3 where
  x : ℝ
  y : ℝ
  z : ℝ

def Vec3.zero : Vec3 := ⟨0, 0, 0⟩

def Vec3.sub (a b : Vec3) : Vec3 := ⟨a.x - b.x, a.y - b.y, a.z - b.z⟩

def Vec3.smul (c : ℝ) (v : Vec3) : Vec3 := ⟨c * v.x, c * v.y, c * v.z⟩

/-- Euclidean norm, `np.linalg.norm` on a length-3 array. -/
def Vec3.norm (v : Vec3) : ℝ := Real.sqrt (v.x ^ 2 + v.y ^ 2 + v.z ^ 2)

/-- The 6-component state `[x, y, z, vx, vy, vz]`; `state[:3]` is `pos`. -/
structure State6 where
  pos : Vec3
  vel : Vec3

def State6.zero : State6 := ⟨Vec3.zero, Vec3.zero⟩

/-! Configuration constants from `config.py`. -/

def LQR_COARSE_THRESHOLD : ℝ := 500
def MPC_FINE_THRESHOLD : ℝ := 5
def SLIDING_CAPTURE_THRESHOLD : ℝ := 0.01
def CAPTURE_TOLERANCE_MM : ℝ := 1.0
def BATTERY_CAPACITY_KWH : ℝ := 50
def BATTERY_EFFICIENCY : ℝ := 0.95
def MAX_DISCHARGE_RATE_KW : ℝ := 10
def MAIN_RCS_THRUST_N : ℝ := 450
def VERNIER_RCS_THRUST_N : ℝ := 50
def RCS_ISP : ℝ := 300
def NET_DEPLOYMENT_TIME_S : ℝ := 3.0
def NET_RETRACTION_TIME_S : ℝ := 5.0
def MAX_DEBRIS_MASS_KG : ℝ := 500

/-! `subsystems/power_system.py` -/

/-- Battery-powered electrical system state. -/
structure PowerSystem where
  capacity_kwh : ℝ
  soc : ℝ
  efficiency : ℝ
  max_discharge_kw : ℝ

def PowerSystem.init : PowerSystem :=
  { capacity_kwh := BATTERY_CAPACITY_KWH
    soc := 1.0
    efficiency := BATTERY_EFFICIENCY
    max_discharge_kw := MAX_DISCHARGE_RATE_KW }

/-- Model of `PowerSystem.request_power`: returns delivered power and the updated
system (the Python method mutates `self.soc`). -/
def PowerSystem.requestPower (ps : PowerSystem) (kw dt : ℝ) : ℝ × PowerSystem :=
  let available := min kw ps.max_discharge_kw
  let energy_kwh := available * dt / 3600
  let p : ℝ × ℝ :=
    if energy_kwh > ps.soc * ps.capacity_kwh then
      (ps.soc * ps.capacity_kwh * 3600 / dt, ps.soc * ps.capacity_kwh)
    else
      (available, energy_kwh)
  let soc := ps.soc - p.2 / ps.capacity_kwh
  let soc := max 0 soc
  (p.1 * ps.efficiency, { ps with soc := soc })

/-- Model of `PowerSystem.can_support`. -/
def PowerSystem.canSupport (ps : PowerSystem) (kw : ℝ) : Prop :=
  ps.soc > 0.01 ∧ kw ≤ ps.max_discharge_kw

instance (ps : PowerSystem) (kw : ℝ) : Decidable (ps.canSupport kw) :=
  inferInstanceAs (Decidable (_ ∧ _))

/-! `subsystems/propulsion.py` -/

/-- Main RCS and vernier thrusters. -/
structure PropulsionSystem where
  main_thrust : ℝ
  vernier_thrust : ℝ
  isp : ℝ
  mass_kg : ℝ
  fuel_kg : ℝ

def PropulsionSystem.init (dry_mass_kg : ℝ) : PropulsionSystem :=
  { main_thrust := MAIN_RCS_THRUST_N
    vernier_thrust := VERNIER_RCS_THRUST_N
    isp := RCS_ISP
    mass_kg := dry_mass_kg
    fuel_kg := 500 }

/-- Model of `PropulsionSystem.thrust_from_acceleration`: returns the realized force
vector, the fuel consumed, and the updated system (the Python method mutates
`self.fuel_kg`).  Note that `mag` is the magnitude of the *unclamped* force
throughout, exactly as in the source. -/
def PropulsionSystem.thrustFromAcceleration (p : PropulsionSystem) (accel : Vec3) :
    Vec3 × ℝ × PropulsionSystem :=
  let f := Vec3.smul p.mass_kg accel
  let mag := f.norm
  let f_max := Real.sqrt 3 * p.main_thrust
  let f := if mag > f_max then Vec3.smul (f_max / mag) f else f
  let f := if mag < p.vernier_thrust then Vec3.smul (p.vernier_thrust / (mag + 1e-8)) f else f
  let dt_flow : ℝ := 0.1
  let mdot := f.norm / (p.isp * 9.81)
  let fuel_used := mdot * dt_flow
  (f, fuel_used, { p with fuel_kg := p.fuel_kg - min fuel_used p.fuel_kg })

/-- Model of `PropulsionSystem.has_fuel`. -/
def PropulsionSystem.hasFuel (p : PropulsionSystem) : Prop := p.fuel_kg > 1.0

/-! `subsystems/grabbing_system.py` -/

/-- Net-based debris capture state. -/
structure GrabbingSystem where
  net_deployed : Bool
  net_deploying : Bool
  capture_confirmed : Bool
  retracting : Bool
  deploy_timer : ℝ
  retract_timer : ℝ
  captured_mass_kg : ℝ
  deployment_thruster_active : Bool

def GrabbingSystem.init : GrabbingSystem :=
  { net_deployed := false
    net_deploying := false
    capture_confirmed := false
    retracting := false
    deploy_timer := 0.0
    retract_timer := 0.0
    captured_mass_kg := 0.0
    deployment_thruster_active := false }

/-- Model of `GrabbingSystem.deploy_net`. -/
def GrabbingSystem.deployNet (g : GrabbingSystem) (dt : ℝ) : Bool × GrabbingSystem :=
  if g.net_deployed then (true, g)
  else
    let g := if ¬ g.net_deploying then
        { g with net_deploying := true, deployment_thruster_active := true }
      else g
    let g := { g with deploy_timer := g.deploy_timer + dt }
    let g := if g.deploy_timer ≥ NET_DEPLOYMENT_TIME_S then
        { g with net_deployed := true, net_deploying := false,
                 deployment_thruster_active := false }
      else g
    (g.net_deployed, g)

/-- Model of `GrabbingSystem.confirm_capture`. -/
def GrabbingSystem.confirmCapture (g : GrabbingSystem) (mass_kg : ℝ) :
    Bool × GrabbingSystem :=
  if mass_kg ≤ MAX_DEBRIS_MASS_KG ∧ g.net_deployed then
    (true, { g with capture_confirmed := true, captured_mass_kg := mass_kg })
  else
    (false, g)

/-- Model of `GrabbingSystem.retract_net`. -/
def GrabbingSystem.retractNet (g : GrabbingSystem) (dt : ℝ) : Bool × GrabbingSystem :=
  if ¬ g.capture_confirmed then (false, g)
  else
    let g := if ¬ g.retracting then { g with retracting := true } else g
    let g := { g with retract_timer := g.retract_timer + dt }
    (decide (g.retract_timer ≥ NET_RETRACTION_TIME_S), g)

/-! `ai_brain.py` -/

/-- The closed mission-phase enumeration `MissionPhase`. -/
inductive MissionPhase where
  | payloadDeployed
  | seekingDebris
  | coarseApproach
  | fineApproach
  | capture
  | retracting
  | reentry
  | complete
deriving DecidableEq

/-- One debris-catalog record `{pos, vel, mass_kg}`. -/
structure Debris where
  pos : Vec3
  vel : Vec3
  mass_kg : ℝ

/-- Telemetry record returned by `compute_control`: the Python dict
`{"phase": ..., "control_mode": ...}` with an optional `"error"` key. -/
structure Telemetry where
  phase : MissionPhase
  control_mode : Option String
  error : Option String

/-- Modelled from the spec: the four feedback controllers live in
`controls.py`, which is not among the given sources; per the spec they are
external collaborators with the uniform contract
`compute_control(state, target[, previous_control]) → acceleration`, treated
as pure functions of their tick inputs.  The orchestrator theorems below
quantify over this structure. -/
structure Controllers where
  lqr : State6 → Vec3 → Vec3
  mpc : State6 → Vec3 → Vec3
  smc : State6 → Vec3 → Vec3
  adaptive : State6 → Vec3 → Vec3 → Vec3

/-- Mutable state of `AIBrain` (the controller objects are modelled separately
as the `Controllers` argument of `computeControl`). -/
structure AIBrain where
  phase : MissionPhase
  power : PowerSystem
  grabbing : GrabbingSystem
  propulsion : PropulsionSystem
  state : State6
  target_debris : Option Debris
  debris_catalog : List Debris

def AIBrain.init : AIBrain :=
  { phase := MissionPhase.payloadDeployed
    power := PowerSystem.init
    grabbing := GrabbingSystem.init
    propulsion := PropulsionSystem.init 4000
    state := State6.zero
    target_debris := none
    debris_catalog := [] }

/-- Model of `AIBrain.identify_nearest_debris`: linear scan keeping the current best;
the `np.inf` initial `best_dist` is modelled by the `none` accumulator (any
distance beats it), and a candidate replaces the best only when its distance
is strictly smaller. -/
def AIBrain.identifyNearestDebris (state : State6) (catalog : List Debris) :
    Option Debris :=
  match catalog with
  | [] => none
  | _ =>
    let pos := state.pos
    catalog.foldl
      (fun best d =>
        match best with
        | none => some d
        | some b =>
          if (Vec3.sub d.pos pos).norm < (Vec3.sub b.pos pos).norm then some d
          else some b)
      none

/-- Model of `AIBrain.decide_phase`: the phase-transition rules in source order.  A
`None` target returns `SEEKING_DEBRIS` (the `dist = inf` case of the source
is unreachable because `target.size >= 3` always holds for a selected
target). -/
def AIBrain.decidePhase (b : AIBrain) (state : State6) (target : Option Vec3) :
    MissionPhase :=
  match target with
  | none => MissionPhase.seekingDebris
  | some t =>
    let dist := (Vec3.sub state.pos t).norm
    if b.phase = MissionPhase.coarseApproach ∧ dist < LQR_COARSE_THRESHOLD then
      MissionPhase.fineApproach
    else if b.phase = MissionPhase.fineApproach ∧ dist < MPC_FINE_THRESHOLD then
      MissionPhase.capture
    else if b.phase = MissionPhase.capture ∧ dist < SLIDING_CAPTURE_THRESHOLD then
      MissionPhase.retracting
    else if b.grabbing.retract_timer ≥ 5.0 ∧ b.grabbing.capture_confirmed then
      MissionPhase.reentry
    else if b.phase = MissionPhase.reentry then
      MissionPhase.complete
    else
      b.phase

/-- The per-phase control dispatch of `AIBrain.compute_control` (the
`if/elif` chain after the phase update), returning the acceleration, the
`control_mode` telemetry value and the updated brain. -/
def AIBrain.dispatchControl (C : Controllers) (b : AIBrain) (state : State6)
    (dt : ℝ) (target : Option Vec3) : Vec3 × Option String × AIBrain :=
  if h : b.phase = MissionPhase.coarseApproach ∧ target.isSome then
    (C.lqr state (target.get h.2), some "LQR", b)
  else if h : b.phase = MissionPhase.fineApproach ∧ target.isSome then
    (C.mpc state (target.get h.2), some "MPC", b)
  else if h : b.phase = MissionPhase.capture ∧ target.isSome then
    let t := target.get h.2
    let u := C.adaptive state t (C.smc state t)
    let g := if (Vec3.sub state.pos t).norm < CAPTURE_TOLERANCE_MM / 1000 then
        (b.grabbing.deployNet dt).2
      else b.grabbing
    (u, some "SMC+Adaptive", { b with grabbing := g })
  else if b.phase = MissionPhase.retracting then
    let mass := match b.target_debris with
      | some d => d.mass_kg
      | none => 100
    let g := (b.grabbing.confirmCapture mass).2
    let g := (g.retractNet dt).2
    (Vec3.zero, some "retract", { b with grabbing := g })
  else if b.phase = MissionPhase.reentry then
    (Vec3.smul (-0.5 / (state.pos.norm + 1e-6)) state.pos, some "reentry", b)
  else
    (Vec3.zero, none, b)

/-- Model of `AIBrain.compute_control`: the main control loop.  Returns the thrust
acceleration, the telemetry record, and the updated brain. -/
def AIBrain.computeControl (b : AIBrain) (C : Controllers) (state : State6)
    (dt : ℝ) : Vec3 × Telemetry × AIBrain :=
  let b := { b with state := state }
  let telemetry : Telemetry :=
    { phase := b.phase, control_mode := none, error := none }
  if ¬ b.power.canSupport 5.0 then
    (Vec3.zero, { telemetry with error := some "low_power" }, b)
  else
    let b :=
      if b.target_debris.isNone ∧ ¬ b.debris_catalog.isEmpty then
        let td := identifyNearestDebris state b.debris_catalog
        { b with target_debris := td,
                 phase := if td.isSome then MissionPhase.coarseApproach
                          else b.phase }
      else b
    let target := b.target_debris.map (fun d => d.pos)
    let b := { b with phase := b.decidePhase state target }
    let r := b.dispatchControl C state dt target
    let u := r.1
    let b := r.2.2
    let power := (b.power.requestPower (u.norm * 0.5) dt).2
    let propulsion := (b.propulsion.thrustFromAcceleration u).2.2
    (u, { telemetry with control_mode := r.2.1 },
      { b with power := power, propulsion := propulsion })

/-! Basic vector lemmas. -/

theorem Vec3.norm_nonneg (v : Vec3) : 0 ≤ v.norm := Real.sqrt_nonneg _

theorem Vec3.norm_zero : Vec3.zero.norm = 0 := by
  simp [Vec3.norm, Vec3.zero]

theorem Vec3.smul_zero_vec (c : ℝ) : Vec3.smul c Vec3.zero = Vec3.zero := by
  simp [Vec3.smul, Vec3.zero]

theorem Vec3.norm_smul (c : ℝ) (v : Vec3) :
    (Vec3.smul c v).norm = |c| * v.norm := by
  simp only [Vec3.smul, Vec3.norm]
  rw [show (c * v.x) ^ 2 + (c * v.y) ^ 2 + (c * v.z) ^ 2
        = c ^ 2 * (v.x ^ 2 + v.y ^ 2 + v.z ^ 2) by ring,
      Real.sqrt_mul (sq_nonneg c), Real.sqrt_sq_eq_abs]

/-- Shared helper: the zero acceleration yields the zero force vector (both
the saturation scale-down and the vernier scale-up multiply the zero
vector). -/
theorem thrustFromAcceleration_zero (p : PropulsionSystem) :
    (p.thrustFromAcceleration Vec3.zero).1 = Vec3.zero := by
  simp only [PropulsionSystem.thrustFromAcceleration, Vec3.smul_zero_vec]
  split <;> split <;> simp [Vec3.smul_zero_vec]

/-- C3 (amended): for a requested acceleration equal to the zero vector,
`thrust_from_acceleration` returns the zero force vector, of magnitude 0 —
not the 50 N vernier floor, because the vernier scale-up multiplies the zero
vector and leaves it zero. -/
theorem thrust_zero_accel_amended (p : PropulsionSystem) :
    (p.thrustFromAcceleration Vec3.zero).1 = Vec3.zero ∧
    (p.thrustFromAcceleration Vec3.zero).1.norm = 0 :=
  ⟨thrustFromAcceleration_zero p, by
    rw [thrustFromAcceleration_zero]; exact Vec3.norm_zero⟩

/-- C3 (counterexample): at the zero acceleration the returned force
magnitude is not 50 N. -/
theorem thrust_zero_accel_cex :
    ((PropulsionSystem.init 4000).thrustFromAcceleration Vec3.zero).1.norm ≠ 50 := by
  rw [thrustFromAcceleration_zero, Vec3.norm_zero]
  norm_num

/-- C4: for every requested acceleration vector the realized force magnitude
is at most √3 × 450 N (the combined-axis saturation cap; the vernier
scale-up only produces magnitudes below 50 N, and the untouched case is
below the cap by the guard). -/
theorem thrust_saturation (p : PropulsionSystem) (a : Vec3)
    (hm : p.main_thrust = 450) (hv : p.vernier_thrust = 50) :
    (p.thrustFromAcceleration a).1.norm ≤ Real.sqrt 3 * 450 := by
  have hs3 : 1 ≤ Real.sqrt 3 := by
    rw [show (1 : ℝ) = Real.sqrt 1 by rw [Real.sqrt_one]]
    exact Real.sqrt_le_sqrt (by norm_num)
  have hcap : (450 : ℝ) ≤ Real.sqrt 3 * 450 := by nlinarith
  have hcappos : (0 : ℝ) < Real.sqrt 3 * 450 := by nlinarith
  simp only [PropulsionSystem.thrustFromAcceleration, hm, hv]
  have hm0 : 0 ≤ (Vec3.smul p.mass_kg a).norm := Vec3.norm_nonneg _
  set m := (Vec3.smul p.mass_kg a).norm with hm_def
  split
  · next hlt =>
      rw [if_neg (by push_neg; linarith : ¬ m > Real.sqrt 3 * 450)]
      rw [Vec3.norm_smul, ← hm_def]
      have heps : (0 : ℝ) < 1e-8 := by norm_num
      have hden : 0 < m + 1e-8 := by linarith
      rw [abs_of_pos (div_pos (by norm_num) hden)]
      have hb : 50 / (m + 1e-8) * m ≤ 50 := by
        rw [div_mul_eq_mul_div, div_le_iff₀ hden]
        nlinarith
      linarith
  · next hge =>
      push_neg at hge
      split
      · next hgt =>
          have hmpos : 0 < m := lt_trans hcappos hgt
          rw [Vec3.norm_smul, ← hm_def,
              abs_of_pos (div_pos hcappos hmpos),
              div_mul_cancel₀ _ (ne_of_gt hmpos)]
      · next hle =>
          push_neg at hle
          exact hle

/-- C4 witness. -/
theorem thrust_saturation_witness :
    ((PropulsionSystem.init 4000).thrustFromAcceleration ⟨2, 1, 0⟩).1.norm ≤
      Real.sqrt 3 * 450 :=
  thrust_saturation _ _ rfl rfl

/-- C6: `thrust_from_acceleration` never increases `fuel_kg`, and the fuel
afterwards stays nonnegative, because the decrement is
`min fuel_used fuel_kg`. -/
theorem thrust_fuel_invariant (p : PropulsionSystem) (a : Vec3)
    (hfuel : 0 ≤ p.fuel_kg) (hisp : 0 ≤ p.isp) :
    (p.thrustFromAcceleration a).2.2.fuel_kg ≤ p.fuel_kg ∧
    0 ≤ (p.thrustFromAcceleration a).2.2.fuel_kg := by
  simp only [PropulsionSystem.thrustFromAcceleration]
  set F := if (Vec3.smul p.mass_kg a).norm < p.vernier_thrust then _ else _
    with hF_def
  have hused : 0 ≤ F.norm / (p.isp * 9.81) * 0.1 := by
    apply mul_nonneg _ (by norm_num)
    exact div_nonneg (Vec3.norm_nonneg _) (mul_nonneg hisp (by norm_num))
  constructor
  · have h1 : 0 ≤ min (F.norm / (p.isp * 9.81) * 0.1) p.fuel_kg :=
      le_min hused hfuel
    linarith
  · have h2 : min (F.norm / (p.isp * 9.81) * 0.1) p.fuel_kg ≤ p.fuel_kg :=
      min_le_right _ _
    linarith

/-- C6 witness. -/
theorem thrust_fuel_invariant_witness :
    ((PropulsionSystem.init 4000).thrustFromAcceleration ⟨1, 0, 0⟩).2.2.fuel_kg ≤
      (PropulsionSystem.init 4000).fuel_kg ∧
    0 ≤ ((PropulsionSystem.init 4000).thrustFromAcceleration ⟨1, 0, 0⟩).2.2.fuel_kg :=
  thrust_fuel_invariant _ _ (by norm_num [PropulsionSystem.init])
    (by norm_num [PropulsionSystem.init, RCS_ISP])

/-- C5: `request_power` with a nonnegative request over a positive step
never increases `soc`, keeps it in `[0, 1]`, and zeroes it exactly when the
requested energy exceeds the remaining stored energy. -/
theorem requestPower_soc_invariant (ps : PowerSystem) (kw dt : ℝ)
    (hcap : 0 < ps.capacity_kwh) (hdis : 0 ≤ ps.max_discharge_kw)
    (hkw : 0 ≤ kw) (hdt : 0 < dt) (h0 : 0 ≤ ps.soc) (h1 : ps.soc ≤ 1) :
    ((ps.requestPower kw dt).2.soc ≤ ps.soc ∧
      0 ≤ (ps.requestPower kw dt).2.soc ∧
      (ps.requestPower kw dt).2.soc ≤ 1) ∧
    (min kw ps.max_discharge_kw * dt / 3600 > ps.soc * ps.capacity_kwh →
      (ps.requestPower kw dt).2.soc = 0) := by
  simp only [PowerSystem.requestPower]
  split
  · next hover =>
      have hz : ps.soc * ps.capacity_kwh / ps.capacity_kwh = ps.soc := by
        field_simp
      simp only [hz, sub_self, max_self, max_eq_left (le_refl (0 : ℝ))]
      constructor
      · exact ⟨by simpa using h0, le_refl _, by norm_num⟩
      · intro _; trivial
  · next hok =>
      push_neg at hok
      have he : 0 ≤ min kw ps.max_discharge_kw * dt / 3600 :=
        div_nonneg (mul_nonneg (le_min hkw hdis) (le_of_lt hdt)) (by norm_num)
      have hq : 0 ≤ min kw ps.max_discharge_kw * dt / 3600 / ps.capacity_kwh :=
        div_nonneg he (le_of_lt hcap)
      constructor
      · refine ⟨?_, ?_, ?_⟩
        · exact max_le (by linarith) (by linarith)
        · exact le_max_left _ _
        · exact le_trans (max_le (by linarith) (by linarith)) h1
      · intro hcontra
        exact absurd hcontra (not_lt.mpr hok)

/-- C5 witness. -/
theorem requestPower_soc_invariant_witness :
    ((PowerSystem.init.requestPower 5 1).2.soc ≤ PowerSystem.init.soc ∧
      0 ≤ (PowerSystem.init.requestPower 5 1).2.soc ∧
      (PowerSystem.init.requestPower 5 1).2.soc ≤ 1) ∧
    (min 5 PowerSystem.init.max_discharge_kw * 1 / 3600 >
        PowerSystem.init.soc * PowerSystem.init.capacity_kwh →
      (PowerSystem.init.requestPower 5 1).2.soc = 0) :=
  requestPower_soc_invariant PowerSystem.init 5 1
    (by norm_num [PowerSystem.init, BATTERY_CAPACITY_KWH])
    (by norm_num [PowerSystem.init, MAX_DISCHARGE_RATE_KW])
    (by norm_num) (by norm_num)
    (by norm_num [PowerSystem.init]) (by norm_num [PowerSystem.init])

/-- C7: `confirm_capture(m)` returns true iff the net is deployed and
`m ≤ 500`; whenever it returns false the grabbing state is unchanged. -/
theorem confirmCapture_true_iff (g : GrabbingSystem) (m : ℝ) :
    (((g.confirmCapture m).1 = true) ↔ (g.net_deployed = true ∧ m ≤ 500)) ∧
    ((g.confirmCapture m).1 = false → (g.confirmCapture m).2 = g) := by
  unfold GrabbingSystem.confirmCapture MAX_DEBRIS_MASS_KG
  split
  · next h =>
      refine ⟨?_, ?_⟩
      · simp [h.1, h.2]
      · simp
  · next h =>
      refine ⟨?_, fun _ => rfl⟩
      simp only [Bool.false_eq_true, false_iff]
      intro hc
      exact h ⟨hc.2, hc.1⟩

/-- C7 witness: a failing call (net not deployed) returns false and leaves
the state unchanged. -/
theorem confirmCapture_true_iff_witness :
    ((GrabbingSystem.init.confirmCapture 600).1 = false) ∧
    ((GrabbingSystem.init.confirmCapture 600).2 = GrabbingSystem.init) := by
  have h := confirmCapture_true_iff GrabbingSystem.init 600
  have h1 : (GrabbingSystem.init.confirmCapture 600).1 = false := by
    cases hb : (GrabbingSystem.init.confirmCapture 600).1 with
    | false => rfl
    | true =>
        have hc := h.1.mp hb
        have : GrabbingSystem.init.net_deployed = false := rfl
        rw [this] at hc
        exact absurd hc.1 (by simp)
  exact ⟨h1, h.2 h1⟩

/-- C2: with a non-null target, whenever rules 2–4 do not match and the
retract timer has reached 5 s with capture confirmed, `decide_phase` returns
REENTRY regardless of the current phase — in particular from CAPTURE. -/
theorem decidePhase_reentry_override (b : AIBrain) (s : State6) (t : Vec3)
    (h2 : ¬ (b.phase = MissionPhase.coarseApproach ∧
        (Vec3.sub s.pos t).norm < LQR_COARSE_THRESHOLD))
    (h3 : ¬ (b.phase = MissionPhase.fineApproach ∧
        (Vec3.sub s.pos t).norm < MPC_FINE_THRESHOLD))
    (h4 : ¬ (b.phase = MissionPhase.capture ∧
        (Vec3.sub s.pos t).norm < SLIDING_CAPTURE_THRESHOLD))
    (h5 : b.grabbing.retract_timer ≥ 5.0)
    (h6 : b.grabbing.capture_confirmed = true) :
    b.decidePhase s (some t) = MissionPhase.reentry := by
  simp only [AIBrain.decidePhase]
  rw [if_neg h2, if_neg h3, if_neg h4, if_pos ⟨h5, h6⟩]

/-- C2 witness: the override fires from phase CAPTURE (distance 10 m, so
rule 4 does not match). -/
theorem decidePhase_reentry_override_witness :
    ({ AIBrain.init with
        phase := MissionPhase.capture,
        grabbing := { GrabbingSystem.init with
          retract_timer := 6, capture_confirmed := true } } :
        AIBrain).decidePhase State6.zero (some ⟨10, 0, 0⟩) =
      MissionPhase.reentry := by
  have hdist : (Vec3.sub State6.zero.pos ⟨10, 0, 0⟩).norm = 10 := by
    simp only [Vec3.sub, Vec3.norm, State6.zero, Vec3.zero]
    rw [show ((0 : ℝ) - 10) ^ 2 + ((0 : ℝ) - 0) ^ 2 + ((0 : ℝ) - 0) ^ 2
          = 10 ^ 2 by norm_num]
    exact Real.sqrt_sq (by norm_num)
  apply decidePhase_reentry_override
  · simp
  · simp
  · intro h
    rw [hdist] at h
    norm_num [SLIDING_CAPTURE_THRESHOLD] at h
  · norm_num
  · rfl

/-- Shared helper: the early return of `compute_control` when the power
check fails. -/
theorem computeControl_lowPower (b : AIBrain) (C : Controllers) (s : State6)
    (dt : ℝ) (hns : ¬ b.power.canSupport 5.0) :
    b.computeControl C s dt =
      (Vec3.zero, ⟨b.phase, none, some "low_power"⟩, { b with state := s }) := by
  simp only [AIBrain.computeControl]
  rw [if_pos hns]

/-- C1: when the power check fails (`soc ≤ 0.01`), `compute_control` returns
the zero acceleration, telemetry with `error = "low_power"` and null
`control_mode`, invokes no controller (the result is independent of the
controller structure), and leaves soc/fuel, the grabbing state, the target
and the phase unchanged. -/
theorem lowPower_tick_inert (C : Controllers) (b : AIBrain) (s : State6)
    (dt : ℝ) (hmax : b.power.max_discharge_kw = 10)
    (hsoc : b.power.soc ≤ 0.01) :
    (¬ b.power.canSupport 5.0 ↔ b.power.soc ≤ 0.01) ∧
    (b.computeControl C s dt).1 = Vec3.zero ∧
    (b.computeControl C s dt).2.1.error = some "low_power" ∧
    (b.computeControl C s dt).2.1.control_mode = none ∧
    (b.computeControl C s dt).2.1.phase = b.phase ∧
    (b.computeControl C s dt).2.2.power = b.power ∧
    (b.computeControl C s dt).2.2.propulsion = b.propulsion ∧
    (b.computeControl C s dt).2.2.grabbing = b.grabbing ∧
    (b.computeControl C s dt).2.2.target_debris = b.target_debris ∧
    (b.computeControl C s dt).2.2.phase = b.phase ∧
    ∀ D : Controllers, b.computeControl C s dt = b.computeControl D s dt := by
  have hns : ¬ b.power.canSupport 5.0 := by
    intro hc
    exact absurd hc.1 (not_lt.mpr hsoc)
  have hiff : ¬ b.power.canSupport 5.0 ↔ b.power.soc ≤ 0.01 := by
    unfold PowerSystem.canSupport
    rw [hmax]
    constructor
    · intro h
      by_contra hgt
      push_neg at hgt
      exact h ⟨hgt, by norm_num⟩
    · intro h hc
      exact absurd hc.1 (not_lt.mpr h)
  rw [computeControl_lowPower b C s dt hns]
  refine ⟨hiff, rfl, rfl, rfl, rfl, rfl, rfl, rfl, rfl, rfl, ?_⟩
  intro D
  rw [computeControl_lowPower b D s dt hns]

/-- C1 witness: a drained battery (`soc = 0.005`). -/
theorem lowPower_tick_inert_witness :
    (({ AIBrain.init with
        power := { PowerSystem.init with soc := 0.005 } } :
        AIBrain).computeControl
      ⟨fun _ _ => Vec3.zero, fun _ _ => Vec3.zero, fun _ _ => Vec3.zero,
        fun _ _ _ => Vec3.zero⟩ State6.zero 0.1).1 = Vec3.zero := by
  have h := lowPower_tick_inert
    ⟨fun _ _ => Vec3.zero, fun _ _ => Vec3.zero, fun _ _ => Vec3.zero,
      fun _ _ _ => Vec3.zero⟩
    { AIBrain.init with power := { PowerSystem.init with soc := 0.005 } }
    State6.zero 0.1 rfl (by norm_num)
  exact h.2.1

/-- C10 (implicit): the `phase` field of the telemetry record returned by
`compute_control` is always the phase at entry to the tick, recorded before
target selection and the phase transition run. -/
theorem telemetry_phase_is_entry_phase (C : Controllers) (b : AIBrain)
    (s : State6) (dt : ℝ) :
    (b.computeControl C s dt).2.1.phase = b.phase := by
  simp only [AIBrain.computeControl]
  split
  · rfl
  · rfl

/-! Characterization of the nearest-debris fold. -/

/-- Spec-side recursion equivalent to the selection loop once a first best
exists: keep the best, replacing it only on a strictly smaller distance. -/
def pick (pos : Vec3) (b : Debris) : List Debris → Debris
  | [] => b
  | d :: ds =>
    if (Vec3.sub d.pos pos).norm < (Vec3.sub b.pos pos).norm then pick pos d ds
    else pick pos b ds

theorem foldl_eq_pick (pos : Vec3) (l : List Debris) (b : Debris) :
    List.foldl
      (fun best d =>
        match best with
        | none => some d
        | some c =>
          if (Vec3.sub d.pos pos).norm < (Vec3.sub c.pos pos).norm then some d
          else some c)
      (some b) l = some (pick pos b l) := by
  induction l generalizing b with
  | nil => rfl
  | cons d ds ih =>
      simp only [List.foldl_cons, pick]
      split
      · exact ih d
      · exact ih b

theorem identifyNearestDebris_cons (s : State6) (c : Debris) (cs : List Debris) :
    AIBrain.identifyNearestDebris s (c :: cs) = some (pick s.pos c cs) := by
  simp only [AIBrain.identifyNearestDebris, List.foldl_cons]
  exact foldl_eq_pick s.pos cs c

/-- Loop invariant of the selection: either the initial best is kept and
everything scanned is at least as far, or the result is the first scanned
element strictly closer than everything before it and at least as close as
everything after it. -/
theorem pick_decomp (pos : Vec3) (l : List Debris) (b : Debris) :
    (pick pos b l = b ∧
      ∀ e ∈ l, (Vec3.sub b.pos pos).norm ≤ (Vec3.sub e.pos pos).norm) ∨
    (∃ l1 l2, l = l1 ++ pick pos b l :: l2 ∧
      (Vec3.sub (pick pos b l).pos pos).norm < (Vec3.sub b.pos pos).norm ∧
      (∀ e ∈ l1,
        (Vec3.sub (pick pos b l).pos pos).norm < (Vec3.sub e.pos pos).norm) ∧
      (∀ e ∈ l2,
        (Vec3.sub (pick pos b l).pos pos).norm ≤ (Vec3.sub e.pos pos).norm)) := by
  induction l generalizing b with
  | nil => exact Or.inl ⟨rfl, by intro e he; cases he⟩
  | cons d ds ih =>
      by_cases h : (Vec3.sub d.pos pos).norm < (Vec3.sub b.pos pos).norm
      · simp only [pick, if_pos h]
        rcases ih d with ⟨heq, hall⟩ | ⟨l1, l2, hsplit, hlt, hbefore, hafter⟩
        · refine Or.inr ⟨[], ds, ?_, ?_, ?_, ?_⟩
          · rw [heq, List.nil_append]
          · rw [heq]; exact h
          · intro e he; cases he
          · rw [heq]; exact hall
        · refine Or.inr ⟨d :: l1, l2, ?_, ?_, ?_, hafter⟩
          · exact congrArg (List.cons d) hsplit
          · exact lt_trans hlt h
          · intro e he
            rcases List.mem_cons.mp he with rfl | he2
            · exact hlt
            · exact hbefore e he2
      · simp only [pick, if_neg h]
        push_neg at h
        rcases ih b with ⟨heq, hall⟩ | ⟨l1, l2, hsplit, hlt, hbefore, hafter⟩
        · refine Or.inl ⟨heq, ?_⟩
          intro e he
          rcases List.mem_cons.mp he with rfl | he2
          · exact h
          · exact hall e he2
        · refine Or.inr ⟨d :: l1, l2, ?_, hlt, ?_, hafter⟩
          · exact congrArg (List.cons d) hsplit
          · intro e he
            rcases List.mem_cons.mp he with rfl | he2
            · exact lt_of_lt_of_le hlt h
            · exact hbefore e he2

/-- Shared helper: the per-phase dispatch never changes the selected
target. -/
theorem dispatchControl_preserves_target (C : Controllers) (b : AIBrain)
    (s : State6) (dt : ℝ) (t : Option Vec3) :
    (AIBrain.dispatchControl C b s dt t).2.2.target_debris =
      b.target_debris := by
  unfold AIBrain.dispatchControl
  split
  · rfl
  split
  · rfl
  split
  · rfl
  split
  · rfl
  split
  · rfl
  rfl

/-- The three-record demonstration catalog of the spec (values from
`main.py`). -/
def demoDebris0 : Debris := ⟨⟨800, 200, 100⟩, ⟨0.1, -0.05, 0⟩, 150⟩

def demoDebris1 : Debris := ⟨⟨300, 50, 20⟩, ⟨-0.02, 0.01, 0⟩, 80⟩

def demoDebris2 : Debris := ⟨⟨5000, 500, 300⟩, ⟨0, 0, 0⟩, 200⟩

def demoCatalog : List Debris := [demoDebris0, demoDebris1, demoDebris2]

def demoBrain : AIBrain := { AIBrain.init with debris_catalog := demoCatalog }

def zeroControllers : Controllers :=
  ⟨fun _ _ => Vec3.zero, fun _ _ => Vec3.zero, fun _ _ => Vec3.zero,
    fun _ _ _ => Vec3.zero⟩

/-- C8: when no target is selected and the catalog is non-empty, the
orchestrator's selected record minimizes the Euclidean distance to the
current position, a strictly smaller distance being required to displace the
current best (so the earliest minimum wins); on the spec's demonstration
catalog from the origin the record at `[300, 50, 20]` is selected, not the
first entry. -/
theorem nearest_debris_selection :
    (∀ (s : State6) (catalog : List Debris) (d : Debris),
        AIBrain.identifyNearestDebris s catalog = some d →
        (∃ l1 l2, catalog = l1 ++ d :: l2 ∧
          ∀ e ∈ l1,
            (Vec3.sub d.pos s.pos).norm < (Vec3.sub e.pos s.pos).norm) ∧
        ∀ e ∈ catalog,
          (Vec3.sub d.pos s.pos).norm ≤ (Vec3.sub e.pos s.pos).norm) ∧
    (∀ (C : Controllers) (b : AIBrain) (s : State6) (dt : ℝ),
        b.power.canSupport 5.0 → b.target_debris = none →
        b.debris_catalog.isEmpty = false →
        (b.computeControl C s dt).2.2.target_debris =
          AIBrain.identifyNearestDebris s b.debris_catalog) ∧
    AIBrain.identifyNearestDebris State6.zero demoCatalog = some demoDebris1 ∧
    AIBrain.identifyNearestDebris State6.zero demoCatalog ≠ some demoDebris0 := by
  have hconcrete :
      AIBrain.identifyNearestDebris State6.zero demoCatalog = some demoDebris1 := by
    have e1 : (Vec3.sub demoDebris1.pos State6.zero.pos).norm <
        (Vec3.sub demoDebris0.pos State6.zero.pos).norm := by
      simp only [demoDebris1, demoDebris0, State6.zero, Vec3.zero, Vec3.sub,
        Vec3.norm]
      exact Real.sqrt_lt_sqrt (by norm_num) (by norm_num)
    have e2 : ¬ ((Vec3.sub demoDebris2.pos State6.zero.pos).norm <
        (Vec3.sub demoDebris1.pos State6.zero.pos).norm) := by
      apply not_lt.mpr
      simp only [demoDebris1, demoDebris2, State6.zero, Vec3.zero, Vec3.sub,
        Vec3.norm]
      exact Real.sqrt_le_sqrt (by norm_num)
    show AIBrain.identifyNearestDebris State6.zero
        (demoDebris0 :: [demoDebris1, demoDebris2]) = some demoDebris1
    rw [identifyNearestDebris_cons]
    simp only [pick, if_pos e1, if_neg e2]
  refine ⟨?_, ?_, hconcrete, ?_⟩
  · intro s catalog d h
    cases catalog with
    | nil => simp [AIBrain.identifyNearestDebris] at h
    | cons c cs =>
        rw [identifyNearestDebris_cons] at h
        have hd := Option.some.inj h
        subst hd
        rcases pick_decomp s.pos cs c with ⟨heq, hall⟩ | ⟨l1, l2, hsplit, hlt, hbefore, hafter⟩
        · refine ⟨⟨[], cs, by rw [heq, List.nil_append], by intro e he; cases he⟩, ?_⟩
          intro e he
          rcases List.mem_cons.mp he with rfl | he2
          · rw [heq]
          · rw [heq]; exact hall e he2
        · refine ⟨⟨c :: l1, l2, congrArg (List.cons c) hsplit, ?_⟩, ?_⟩
          · intro e he
            rcases List.mem_cons.mp he with rfl | he2
            · exact hlt
            · exact hbefore e he2
          · intro e he
            rcases List.mem_cons.mp he with rfl | he2
            · exact le_of_lt hlt
            · rw [hsplit] at he2
              rcases List.mem_append.mp he2 with h1 | h2
              · exact le_of_lt (hbefore e h1)
              · rcases List.mem_cons.mp h2 with rfl | h3
                · exact le_refl _
                · exact hafter e h3
  · intro C b s dt hpow htgt hcat
    simp only [AIBrain.computeControl, htgt, hcat, Option.isNone_none]
    rw [if_neg (not_not_intro hpow)]
    rw [dispatchControl_preserves_target]
    simp
  · rw [hconcrete]
    intro h
    have h2 : demoDebris1 = demoDebris0 := Option.some.inj h
    have h3 : (300 : ℝ) = 800 := congrArg (fun d => d.pos.x) h2
    norm_num at h3

/-- C8 witness: from the demonstration catalog with no target selected, one
tick of the orchestrator selects the `[300, 50, 20]` record. -/
theorem nearest_debris_selection_witness :
    (demoBrain.computeControl zeroControllers State6.zero 0.1).2.2.target_debris =
      some demoDebris1 :=
  (nearest_debris_selection.2.1 zeroControllers demoBrain State6.zero 0.1
      ⟨by norm_num [demoBrain, AIBrain.init, PowerSystem.init],
        by norm_num [demoBrain, AIBrain.init, PowerSystem.init,
          MAX_DISCHARGE_RATE_KW]⟩
      rfl rfl).trans nearest_debris_selection.2.2.1

/-- Lemma: `decide_phase` reads only the phase and the grabbing state, so updating
the stored state vector does not affect it. -/
theorem decidePhase_set_state (b : AIBrain) (s0 s : State6) (t : Option Vec3) :
    AIBrain.decidePhase { b with state := s0 } s t = AIBrain.decidePhase b s t :=
  rfl

/-- Shared helper: one tick that passes the power gate, keeps its already
selected target, and lands in the REENTRY phase returns the deorbit burn
`-0.5 · pos / (‖pos‖ + 1e-6)` with `control_mode = "reentry"`. -/
theorem computeControl_reentry (b : AIBrain) (C : Controllers) (s : State6)
    (dt : ℝ) (d : Debris) (hpow : b.power.canSupport 5.0)
    (htgt : b.target_debris = some d)
    (hphase : b.decidePhase s (some d.pos) = MissionPhase.reentry) :
    (b.computeControl C s dt).1 =
      Vec3.smul (-0.5 / (s.pos.norm + 1e-6)) s.pos ∧
    (b.computeControl C s dt).2.1.control_mode = some "reentry" := by
  simp only [AIBrain.computeControl]
  rw [if_neg (not_not_intro hpow)]
  have hsel : ¬ (b.target_debris.isNone = true ∧
      ¬ b.debris_catalog.isEmpty = true) := by
    rw [htgt]; simp
  rw [if_neg hsel]
  simp only [htgt, Option.map_some']
  have hphase2 := hphase
  simp only [AIBrain.decidePhase] at hphase2 ⊢
  rw [hphase2]
  simp only [AIBrain.dispatchControl]
  simp

/-- Helper: absolute value of the deorbit gain over a positive
denominator. -/
theorem abs_neg_half_div (t : ℝ) (ht : 0 < t) : |(-0.5) / t| = 0.5 / t := by
  rw [abs_div, abs_neg, abs_of_pos (by norm_num : (0 : ℝ) < 0.5), abs_of_pos ht]

/-- C9 (amended): a REENTRY tick returns `-0.5 · pos / (‖pos‖ + 1e-6)` with
`control_mode = "reentry"`; its magnitude is `0.5 ‖pos‖ / (‖pos‖ + 1e-6)`,
strictly below 0.5 — not exactly 0.5 as the original claim states. -/
theorem reentry_acceleration (C : Controllers) (b : AIBrain) (s : State6)
    (dt : ℝ) (d : Debris) (hpow : b.power.canSupport 5.0)
    (htgt : b.target_debris = some d)
    (hphase : b.decidePhase s (some d.pos) = MissionPhase.reentry) :
    (b.computeControl C s dt).1 =
      Vec3.smul (-0.5 / (s.pos.norm + 1e-6)) s.pos ∧
    (b.computeControl C s dt).2.1.control_mode = some "reentry" ∧
    (b.computeControl C s dt).1.norm = 0.5 * s.pos.norm / (s.pos.norm + 1e-6) ∧
    (b.computeControl C s dt).1.norm < 0.5 := by
  obtain ⟨hu, hmode⟩ := computeControl_reentry b C s dt d hpow htgt hphase
  have hn : 0 ≤ s.pos.norm := Vec3.norm_nonneg _
  have heps : (0 : ℝ) < 1e-6 := by norm_num
  have hden : 0 < s.pos.norm + 1e-6 := by linarith
  have hnorm : (Vec3.smul (-0.5 / (s.pos.norm + 1e-6)) s.pos).norm =
      0.5 * s.pos.norm / (s.pos.norm + 1e-6) := by
    rw [Vec3.norm_smul, abs_neg_half_div _ hden]
    ring
  refine ⟨hu, hmode, by rw [hu, hnorm], ?_⟩
  rw [hu, hnorm, div_lt_iff₀ hden]
  nlinarith

/-- The concrete brain used to exercise the REENTRY branch: target already
selected, capture confirmed and retract timer past 5 s, phase REENTRY. -/
def reentryBrain : AIBrain :=
  { AIBrain.init with
      phase := MissionPhase.reentry,
      target_debris := some demoDebris1,
      grabbing := { GrabbingSystem.init with
        capture_confirmed := true, retract_timer := 6 } }

def reentryState : State6 := ⟨⟨1, 0, 0⟩, Vec3.zero⟩

theorem reentryBrain_decidePhase :
    reentryBrain.decidePhase reentryState (some demoDebris1.pos) =
      MissionPhase.reentry := by
  simp [AIBrain.decidePhase, reentryBrain, AIBrain.init, GrabbingSystem.init,
    show (5.0 : ℝ) ≤ 6 by norm_num]

/-- C9 (counterexample): at position `[1, 0, 0]` (nonzero) the REENTRY-tick
acceleration has magnitude `0.5 / (1 + 1e-6)`, which is not 0.5. -/
theorem reentry_acceleration_cex :
    reentryState.pos ≠ Vec3.zero ∧
    (reentryBrain.computeControl zeroControllers reentryState 0.1).1.norm ≠ 0.5 := by
  obtain ⟨hu, _⟩ := computeControl_reentry reentryBrain zeroControllers
    reentryState 0.1 demoDebris1
    ⟨by norm_num [reentryBrain, AIBrain.init, PowerSystem.init],
      by norm_num [reentryBrain, AIBrain.init, PowerSystem.init,
        MAX_DISCHARGE_RATE_KW]⟩
    rfl reentryBrain_decidePhase
  have h1 : reentryState.pos.norm = 1 := by
    simp only [reentryState, Vec3.norm]
    rw [show (1 : ℝ) ^ 2 + 0 ^ 2 + 0 ^ 2 = 1 by norm_num, Real.sqrt_one]
  constructor
  · intro h
    have hx := congrArg Vec3.x h
    simp only [reentryState, Vec3.zero] at hx
    norm_num at hx
  · rw [hu, Vec3.norm_smul, h1,
      abs_neg_half_div _ (by norm_num : (0 : ℝ) < 1 + 1e-6)]
    norm_num

/-- C9 witness for the amended theorem. -/
theorem reentry_acceleration_witness :
    (reentryBrain.computeControl zeroControllers reentryState 0.1).2.1.control_mode =
      some "reentry" ∧
    (reentryBrain.computeControl zeroControllers reentryState 0.1).1.norm < 0.5 := by
  have h := reentry_acceleration zeroControllers reentryBrain reentryState 0.1
    demoDebris1
    ⟨by norm_num [reentryBrain, AIBrain.init, PowerSystem.init],
      by norm_num [reentryBrain, AIBrain.init, PowerSystem.init,
        MAX_DISCHARGE_RATE_KW]⟩
    rfl reentryBrain_decidePhase
  exact ⟨h.2.1, h.2.2.2⟩

end

end Falcon9
